import Mathlib

/-!
Verification of the node pipeline engine of this repository against its
natural-language specification.

The embedding translates, from the source:
 * `src/models/node/node.py` — the abstract `Node` base class: parameter
   validation, the child-edge registry (`add_child`), the propagation engine
   (`run` / `_call_children`) and disposal (`dispose_all`);
 * `src/models/node/generator/file/csvfile.py` — the `CSVFile` generator:
   parameter validation, CSV data generation and disposal;
 * `src/config/configuration.py` — the process-wide configuration cache.

`models/framework_data.py` (the `FrameworkData` sample buffer) and
`models/node/generator/generator_node.py` (the `GeneratorNode` middle class)
are part of the repository but are not available; definitions derived from
them are modelled from the specification and carry a doc comment starting
with "Modelled from the spec:".
-/

/-- Modelled from the spec: a scalar sample value held by a `FrameworkData`
buffer (the spec calls samples "numeric or opaque scalar").  `Cell.flt s`
stands for the Python value `float(s)` obtained from the CSV cell string `s`;
the conversion is kept symbolic because none of the claims computes with the
numeric value, only with which value is placed where. `Cell.idx i` is a
generated integer row index; `Cell.str s` is a raw string cell. -/
inductive Cell where
  | str : String → Cell
  | idx : Nat → Cell
  | flt : String → Cell
deriving DecidableEq

/-- Modelled from the spec: `FrameworkData` (`models/framework_data.py` is not
among the available sources).  Spec section 3, "Sample Buffer": a sampling
frequency, an ordered sequence of channel names and a per-channel ordered
sequence of samples.  Channels are kept as an ordered association list. -/
structure FData where
  samplingFrequency : Option Int := none
  channels : List (String × List Cell) := []
deriving DecidableEq

/-- Modelled from the spec: the implicit default channel used when data is
appended without naming a channel ("an implicit default channel if the port
carries a single unnamed stream"). -/
def FData.defaultChannel : String := "default"

/-- Update an association list at a key, appending samples to its entry and
creating the entry at the end when the key is absent (spec: "auto-creating the
channel entry if unseen"). -/
def channelAppend : List (String × List Cell) → String → List Cell → List (String × List Cell)
  | [], ch, xs => [(ch, xs)]
  | (c, ys) :: rest, ch, xs =>
    if c = ch then (c, ys ++ xs) :: rest else (c, ys) :: channelAppend rest ch xs

/-- Modelled from the spec: `FrameworkData.input_data_on_channel` / `append`
(spec section 4.1): appends a sequence of samples to the named channel, or to
the implicit default channel when no channel is given. -/
def FData.appendOn (d : FData) (channel : Option String) (samples : List Cell) : FData :=
  { d with channels := channelAppend d.channels (channel.getD FData.defaultChannel) samples }

/-- Modelled from the spec: `FrameworkData.extend` (spec section 4.1): for
every channel present in `other`, appends its samples in order to the matching
channel of `d`, creating it if absent. -/
def FData.extend (d other : FData) : FData :=
  { d with channels := other.channels.foldl (fun acc co => channelAppend acc co.1 co.2) d.channels }

/-- Modelled from the spec: `FrameworkData.has_data` (spec section 4.1): true
iff any channel holds at least one sample. -/
def FData.hasData (d : FData) : Bool :=
  d.channels.any (fun c => ¬ c.2.isEmpty)

/-- Modelled from the spec: the `FrameworkData(sampling_frequency, channels)`
constructor: a fresh buffer bound to an optional sampling frequency, with the
given channel names pre-declared (empty) when provided. -/
def FData.create (freq : Option Int) (channelNames : Option (List String)) : FData :=
  { samplingFrequency := freq, channels := (channelNames.getD []).map (fun c => (c, [])) }

/-- A Python parameter value, as far as the validation code inspects it: the
checks in the source compare `type(x)` against `str`, `int`, `float` and
`list`, and look keys up in dicts.  Numeric payloads are irrelevant to
validation, so a float is represented by an integer payload plus its tag. -/
inductive PValue where
  | str : String → PValue
  | int : Int → PValue
  | float : Int → PValue
  | list : List PValue → PValue
  | dict : List (String × PValue) → PValue
  | bool : Bool → PValue

/-- A parameters record (a Python dict keyed by strings): a partial map from
key to value.  `p k = none` models `k not in p`. -/
def Params : Type := String → Option PValue

/-- The errors raised by the translated code.  `valueError s` is Python
`ValueError(s)`; `missingParameter m p` is `MissingParameterError(module=m,
parameter=p)`; `invalidParameterValue m p c` is `InvalidParameterValue(
module=m, parameter=p, cause=c)`; `keyError k` is a Python `KeyError(k)` from
a failed dict subscript; `fileNotFound p` is `FileNotFoundError` from `open`. -/
inductive VErr where
  | valueError : String → VErr
  | missingParameter : String → String → VErr
  | invalidParameterValue : String → String → String → VErr
  | keyError : String → VErr
  | fileNotFound : String → VErr
deriving DecidableEq

/-- Whether `needle` occurs as a contiguous subsequence of `hay`
(the Python expression `needle in hay` on strings). -/
def seqContains : List Char → List Char → Bool
  | n, [] => n.isEmpty
  | n, c :: rest => n.isPrefixOf (c :: rest) || seqContains n rest

/-- Python string containment `needle in hay`. -/
def strIn (needle hay : String) : Bool :=
  seqContains needle.toList hay.toList

/-- Embeds `Node._validate_parameters` (src/models/node/node.py, lines 29-64).
Checks, in source order, that the keys `module`, `type`, `buffer_options`,
`outputs` and `name` are present, raising `ValueError` with the corresponding
`error.missing.node.<field>` message otherwise.  The check of the module value
at source lines 36-41 constructs `ValueError('error.invalid.value.node.module')`
but does not `raise` it, so it has no observable effect; the embedding records
the computed condition and discards it, exactly as the source does. -/
def Node.validate_parameters (p : Params) : Except VErr Unit := do
  if (p "module").isNone then
    throw (.valueError "error.missing.node.module")
  let _invalidModule : Bool :=
    match p "module" with
    | some (.str m) => ¬ strIn "models.node." m
    | _ => false
  if (p "type").isNone then
    throw (.valueError "error.missing.node.type")
  if (p "buffer_options").isNone then
    throw (.valueError "error.missing.node.buffer_options")
  if (p "outputs").isNone then
    throw (.valueError "error.missing.node.outputs")
  if (p "name").isNone then
    throw (.valueError "error.missing.node.name")
  pure ()

/-- One entry of `Node._children[output_name]`: the source stores the child
object together with `run`/`dispose` closures that capture exactly the child
and the bound input name, so the record is the child reference (nodes are
dict keys by object identity, modelled as a numeric id) plus the input name. -/
structure EdgeRec where
  node : Nat
  inputName : String
deriving DecidableEq

/-- The mutable state of one `Node` object: the declared output and input port
names (`_get_outputs()` / `_get_inputs()`, fixed for the node's lifetime), the
edge registry `_children`, the duplicate-detection map `_child_input_relation`
(keyed by child object identity), and the two port-buffer maps. -/
structure NodeState where
  outputs : List String
  inputs : List String
  children : List (String × List EdgeRec)
  childInputRelation : List (Nat × List String)
  inputBuffer : List (String × FData)
  outputBuffer : List (String × FData)
deriving DecidableEq

/-- The state built by `Node.__init__`: `_initialize_children` maps every
declared output to an empty edge list, and `_clear_input_buffer` /
`_clear_output_buffer` map every declared port to a fresh empty buffer. -/
def NodeState.initial (outputs inputs : List String) : NodeState :=
  { outputs := outputs
    inputs := inputs
    children := outputs.map (fun o => (o, []))
    childInputRelation := []
    inputBuffer := inputs.map (fun i => (i, FData.create none none))
    outputBuffer := outputs.map (fun o => (o, FData.create none none)) }

/-- Update an association list at a key that is present, preserving order;
an absent key leaves the list unchanged (callers only use it on present keys). -/
def setKey {α : Type} : List (String × α) → String → α → List (String × α)
  | [], _, _ => []
  | (k, v) :: rest, key, nv =>
    if k = key then (key, nv) :: rest else (k, v) :: setKey rest key nv

/-- Embeds `Node.add_child` (src/models/node/node.py, lines 111-132).  Returns the
state after the call and the raised error, if any: a raised exception aborts
the call but leaves the mutations already performed in place, so the state is
returned in every case.  Steps, in source order:
 1. `if node not in self._child_input_relation: self._child_input_relation[node] = []`;
 2. `if input_name in self._child_input_relation[node]: raise
    InvalidParameterValue(module='node', parameter='outputs.'+output_name,
    cause='already_added')` — note that nothing in the source ever appends
    `input_name` to `self._child_input_relation[node]`, so the list inspected
    here is always the empty list installed in step 1;
 3. `self._children[output_name].append({...})`, which raises `KeyError` when
    `output_name` is not a declared output (the dict holds exactly the
    declared outputs as keys).
Step 1 is factored out as `Node.relAfterDefault` below. -/
def Node.relAfterDefault (s : NodeState) (node : Nat) : List (Nat × List String) :=
  if (s.childInputRelation.lookup node).isSome then s.childInputRelation
  else s.childInputRelation ++ [(node, [])]

/-- Embeds `Node.add_child`, continued from `Node.relAfterDefault` above: the
duplicate check of step 2 followed by the append of step 3. -/
def Node.add_child (s : NodeState) (output_name : String) (node : Nat) (input_name : String) :
    NodeState × Option VErr :=
  if input_name ∈ ((Node.relAfterDefault s node).lookup node).getD [] then
    ({ s with childInputRelation := Node.relAfterDefault s node },
     some (.invalidParameterValue "node" ("outputs." ++ output_name) "already_added"))
  else
    match s.children.lookup output_name with
    | none =>
      ({ s with childInputRelation := Node.relAfterDefault s node }, some (.keyError output_name))
    | some edges =>
      ({ s with childInputRelation := Node.relAfterDefault s node,
                children := setKey s.children output_name (edges ++ [⟨node, input_name⟩]) },
       none)

/-- Embeds `Node.check_input` (src/models/node/node.py, lines 162-168): raises
`ValueError('error.invalid.value.node.input')` when the name is not a declared
input; returns the raised error, `none` meaning no exception. -/
def Node.check_input (s : NodeState) (input_name : String) : Option VErr :=
  if input_name ∈ s.inputs then none
  else some (.valueError "error.invalid.value.node.input")

/-- Embeds `Node.check_output` (src/models/node/node.py, lines 170-176). -/
def Node.check_output (s : NodeState) (output_name : String) : Option VErr :=
  if output_name ∈ s.outputs then none
  else some (.valueError "error.invalid.value.node.output")

/-!
The propagation engine (`Node.run`, `Node._call_children`,
`Node.dispose_all`, `Node._dispose_all_children`;
src/models/node/node.py, lines 134-160 and 226-230).

A node graph is modelled as a finite tree: each node carries its name, the
boolean returned by its `_is_next_node_call_enabled` gating predicate (as it
evaluates after the node's own `_run` step — the predicate is node-kind
specific and the base engine only inspects its boolean result), and its
declared output ports in declaration order, each with the contents of its
output buffer after `_run` and its registered edges in registration order.
Executions are instrumented with an event trace, as the specification's
test plan asks ("verify via an instrumented call-order log").
-/

mutual
/-- A node as seen by the propagation engine: name, gating-predicate result,
declared output ports. -/
inductive PNode : Type where
  | mk : String → Bool → PortsT → PNode
/-- The declared output ports of a node, in declaration order
(`_get_outputs()`); each port carries its name, its output-buffer contents
(`_output_buffer[output_name]`) and its registered edges (`_children[output_name]`). -/
inductive PortsT : Type where
  | nil : PortsT
  | cons : String → FData → EdgesT → PortsT → PortsT
/-- The registered edges of one output port, in registration order: child node
and bound child input name (captured by the `run`/`dispose` closures). -/
inductive EdgesT : Type where
  | enil : EdgesT
  | econs : PNode → String → EdgesT → EdgesT
end

def PNode.name : PNode → String
  | .mk n _ _ => n

def PNode.gate : PNode → Bool
  | .mk _ g _ => g

def PNode.ports : PNode → PortsT
  | .mk _ _ ps => ps

/-- Events of the instrumented call-order log. -/
inductive Event where
  | enter : String → Option String → Option FData → Event
  | ranSelf : String → Event
  | exitRun : String → Event
  | disposed : String → Event
deriving DecidableEq

mutual
/-- Embeds `Node.run` (src/models/node/node.py, lines 149-160), instrumented: emits
`enter name input data` when called, `ranSelf name` after `self._run(data,
input_name)`, then — exactly when `_is_next_node_call_enabled()` returned
true — the events of `self._call_children()`, and finally `exitRun name` when
the call returns. -/
def PNode.runNode : PNode → Option FData → Option String → List Event
  | .mk name gate ports, data, input =>
    (Event.enter name input data :: Event.ranSelf name ::
      (if gate then PortsT.callChildren ports else [])) ++ [Event.exitRun name]
/-- Embeds `Node._call_children` (src/models/node/node.py, lines 140-147): for each
declared output port in declaration order, look up the port's output buffer
and edge list, and for each registered edge call the child's `run` with the
buffer and the bound input name. -/
def PortsT.callChildren : PortsT → List Event
  | .nil => []
  | .cons _ buf edges rest => EdgesT.runEdges buf edges ++ PortsT.callChildren rest
/-- The inner loop of `_call_children`: `for child in output_children:
child['run'](output)`, where the stored closure is
`lambda data: node.run(data, input_name)`. -/
def EdgesT.runEdges : FData → EdgesT → List Event
  | _, .enil => []
  | buf, .econs child iname rest =>
    PNode.runNode child (some buf) (some iname) ++ EdgesT.runEdges buf rest
end

/-- Embeds `Node._dispose_all_children` inner loop (src/models/node/node.py, lines
134-138): `for child in output_children: child['dispose'](child)`, where the
stored closure is `lambda x: node.dispose()` — it invokes the child's own
`dispose`, not the child's `dispose_all`, so only the direct child is
disposed and nothing recurses into the child's subtree. -/
def EdgesT.disposeEdges : EdgesT → List Event
  | .enil => []
  | .econs child _ rest => Event.disposed child.name :: EdgesT.disposeEdges rest

/-- Embeds `Node._dispose_all_children` (src/models/node/node.py, lines 134-138). -/
def PortsT.disposeChildren : PortsT → List Event
  | .nil => []
  | .cons _ _ edges rest => EdgesT.disposeEdges edges ++ PortsT.disposeChildren rest

/-- Embeds `Node.dispose_all` (src/models/node/node.py, lines 226-230):
`self._dispose_all_children()` then `self.dispose()`. -/
def PNode.dispose_all : PNode → List Event
  | .mk name _ ports => PortsT.disposeChildren ports ++ [Event.disposed name]

/-- The declared output ports as a list, in declaration order. -/
def PortsT.toList : PortsT → List (String × FData × EdgesT)
  | .nil => []
  | .cons n b e rest => (n, b, e) :: PortsT.toList rest

/-- The registered edges as a list, in registration order. -/
def EdgesT.toList : EdgesT → List (PNode × String)
  | .enil => []
  | .econs c i rest => (c, i) :: EdgesT.toList rest

/-!  Association-list helper lemmas shared by several claims. -/

theorem lookup_setKey_self {α : Type} (k : String) (v : α) :
    ∀ l : List (String × α), (List.lookup k l).isSome →
      List.lookup k (setKey l k v) = some v
  | [], h => by simp [List.lookup] at h
  | (k0, v0) :: rest, h => by
    by_cases hk : k0 = k
    · subst hk
      simp [setKey, List.lookup]
    · have hbeq : (k == k0) = false := by
        rw [beq_eq_false_iff_ne]
        exact Ne.symm hk
      simp only [setKey, if_neg hk, List.lookup, hbeq] at h ⊢
      exact lookup_setKey_self k v rest h

theorem lookup_setKey_ne {α : Type} (k k' : String) (v : α) (h : k' ≠ k) :
    ∀ l : List (String × α), List.lookup k' (setKey l k v) = List.lookup k' l
  | [] => by simp [setKey]
  | (k0, v0) :: rest => by
    by_cases hk : k0 = k
    · subst hk
      have hbeq : (k' == k0) = false := by
        rw [beq_eq_false_iff_ne]
        exact h
      simp only [setKey, if_pos rfl, List.lookup, hbeq]
    · simp only [setKey, if_neg hk]
      by_cases hk' : k' = k0
      · subst hk'
        simp only [List.lookup, beq_self_eq_true]
      · have hbeq : (k' == k0) = false := by
          rw [beq_eq_false_iff_ne]
          exact hk'
        simp only [List.lookup, hbeq]
        exact lookup_setKey_ne k k' v h rest

theorem lookup_append_right {α β : Type} [BEq α] (a : α) (l2 : List (α × β)) :
    ∀ l1 : List (α × β), List.lookup a l1 = none →
      List.lookup a (l1 ++ l2) = List.lookup a l2
  | [], _ => by simp
  | (k, v) :: rest, h => by
    simp only [List.lookup, List.cons_append] at h ⊢
    cases hak : a == k with
    | true => rw [hak] at h; simp at h
    | false =>
      rw [hak] at h
      simp only [Bool.false_eq_true, if_false] at h ⊢
      exact lookup_append_right a l2 rest h

/-- After the default-insert step of `add_child`, the duplicate-detection list
for `node` reads back as exactly the (possibly empty) list it held before. -/
theorem relAfterDefault_lookup (s : NodeState) (node : Nat) :
    (Node.relAfterDefault s node).lookup node =
      some ((s.childInputRelation.lookup node).getD []) := by
  unfold Node.relAfterDefault
  by_cases hm : (s.childInputRelation.lookup node).isSome
  · rw [if_pos hm]
    obtain ⟨l, hl⟩ := Option.isSome_iff_exists.mp hm
    rw [hl]
    rfl
  · rw [if_neg hm]
    have hnone : s.childInputRelation.lookup node = none := by
      cases hcase : s.childInputRelation.lookup node with
      | none => rfl
      | some v => rw [hcase] at hm; simp at hm
    rw [lookup_append_right node _ _ hnone, hnone]
    simp [List.lookup]

/-- A concrete node state shared by several examples: a node with one declared
output port `main` and no inputs, fresh from `Node.__init__`. -/
def demoNode : NodeState := NodeState.initial ["main"] []

/-- C1: the claim states that a second `add_child` call binding an already
registered `(childNode, inputPort)` pair raises `InvalidParameterValue` with
cause `already_added` and leaves the edge registry unchanged.  The source
checks `input_name in self._child_input_relation[node]` but never appends
`input_name` to that list, so the check can never fire: evaluating the code on
the failing input — the same `add_child('main', child, 'in1')` performed
twice — shows the second call raises nothing and appends a duplicate edge. -/
theorem C1_duplicate_edge_not_rejected :
    (Node.add_child (Node.add_child demoNode "main" 7 "in1").1 "main" 7 "in1").2 = none ∧
    (Node.add_child (Node.add_child demoNode "main" 7 "in1").1 "main" 7 "in1").1.children.lookup
        "main" = some [⟨7, "in1"⟩, ⟨7, "in1"⟩] := by
  constructor <;> rfl

/-- C7 counterexample: the claim states that passing an undeclared port name
to `add_child` fails with `InvalidValue("unknown port")` (in this code base,
the `error.invalid.value.node.output` `ValueError` of `check_output`).  On the
concrete node declaring only the output `main`, `add_child` with the unknown
port `bogus` instead fails with `KeyError('bogus')` from the subscript
`self._children[output_name]`: `check_output` is never invoked. -/
theorem C7_unknown_port_counterexample :
    (Node.add_child demoNode "bogus" 7 "in1").2 = some (.keyError "bogus") ∧
    (Node.add_child demoNode "bogus" 7 "in1").2 ≠
      some (.valueError "error.invalid.value.node.output") := by
  constructor <;> decide

/-- C7 amended: `check_input` / `check_output` do fail exactly on undeclared
port names (with the `error.invalid.value.node.input` / `.output`
`ValueError`), but `add_child` performs no such check: an undeclared output
port makes it fail with `KeyError(output_name)` from the registry subscript
(and the bound child input name is not checked at all). -/
theorem C7_unknown_port_amended (s : NodeState) (pin pout : String) :
    (Node.check_input s pin = none ↔ pin ∈ s.inputs) ∧
    (Node.check_output s pout = none ↔ pout ∈ s.outputs) ∧
    (∀ node iname, iname ∉ (s.childInputRelation.lookup node).getD [] →
      s.children.lookup pout = none →
      (Node.add_child s pout node iname).2 = some (.keyError pout)) := by
  refine ⟨?_, ?_, ?_⟩
  · unfold Node.check_input
    split <;> simp_all
  · unfold Node.check_output
    split <;> simp_all
  · intro node iname hrel hout
    unfold Node.add_child
    rw [relAfterDefault_lookup]
    rw [if_neg (by simpa using hrel)]
    simp [hout]

/-- C7 witness: the amended statement instantiated on the concrete node
declaring only the output `main`, with every hypothesis discharged. -/
theorem C7_unknown_port_amended_witness :
    (Node.check_output demoNode "bogus" = none ↔ "bogus" ∈ demoNode.outputs) ∧
    (Node.add_child demoNode "bogus" 7 "in1").2 = some (.keyError "bogus") :=
  ⟨(C7_unknown_port_amended demoNode "x" "bogus").2.1,
   (C7_unknown_port_amended demoNode "x" "bogus").2.2 7 "in1" (by decide) (by decide)⟩

/-- C10: a successful `add_child(outputPort, childNode, inputPort)` appends
exactly one edge record at the end of the edge list of `outputPort`, and
leaves every other output port's edge list, the input buffer map and the
output buffer map unchanged. -/
theorem C10_addChild_frame (s : NodeState) (out : String) (node : Nat) (iname : String)
    (hok : (Node.add_child s out node iname).2 = none) :
    ((Node.add_child s out node iname).1.children.lookup out
        = some (((s.children.lookup out).getD []) ++ [⟨node, iname⟩])) ∧
    (∀ p, p ≠ out →
      (Node.add_child s out node iname).1.children.lookup p = s.children.lookup p) ∧
    (Node.add_child s out node iname).1.inputBuffer = s.inputBuffer ∧
    (Node.add_child s out node iname).1.outputBuffer = s.outputBuffer := by
  unfold Node.add_child at hok ⊢
  rw [relAfterDefault_lookup] at hok ⊢
  simp only [Option.getD_some] at hok ⊢
  by_cases hdup : iname ∈ ((s.childInputRelation.lookup node).getD [])
  · rw [if_pos hdup] at hok
    simp at hok
  · rw [if_neg hdup] at hok ⊢
    cases hch : s.children.lookup out with
    | none =>
      rw [hch] at hok
      simp at hok
    | some edges =>
      simp only [hch] at hok ⊢
      refine ⟨?_, ?_, ?_, ?_⟩
      · have h1 := lookup_setKey_self out (edges ++ [⟨node, iname⟩]) s.children (by rw [hch]; rfl)
        simpa [hch] using h1
      · intro p hp
        simpa using lookup_setKey_ne out p _ hp s.children
      · trivial
      · trivial

/-- C10 witness: the frame property instantiated on the concrete node
declaring only the output `main`, with the success hypothesis discharged. -/
theorem C10_addChild_frame_witness :
    ((Node.add_child demoNode "main" 5 "in1").2 = none) ∧
    ((Node.add_child demoNode "main" 5 "in1").1.children.lookup "main"
        = some (((demoNode.children.lookup "main").getD []) ++ [⟨5, "in1"⟩])) :=
  ⟨by decide, (C10_addChild_frame demoNode "main" 5 "in1" (by decide)).1⟩

/-- The inner loop of `_call_children`, characterized over the edge list in
registration order: the trace is the concatenation of the complete `run`
traces of the children, each invoked with the port's buffer and its bound
input name. -/
theorem runEdges_toList (buf : FData) : ∀ es : EdgesT,
    EdgesT.runEdges buf es =
      ((EdgesT.toList es).map (fun e => PNode.runNode e.1 (some buf) (some e.2))).flatten
  | .enil => by simp [EdgesT.runEdges, EdgesT.toList]
  | .econs c i rest => by
    simp [EdgesT.runEdges, EdgesT.toList, runEdges_toList buf rest]

/-- The trace of `_call_children`, characterized over the declared output ports in
declaration order. -/
theorem callChildren_toList : ∀ ps : PortsT,
    PortsT.callChildren ps =
      ((PortsT.toList ps).map (fun pb =>
        ((EdgesT.toList pb.2.2).map
          (fun e => PNode.runNode e.1 (some pb.2.1) (some e.2))).flatten)).flatten
  | .nil => by simp [PortsT.callChildren, PortsT.toList]
  | .cons n b e rest => by
    simp [PortsT.callChildren, PortsT.toList, callChildren_toList rest, runEdges_toList]

/-- C2: `run` first executes the node's own `_run` step, then evaluates the
gating predicate; exactly when the predicate is true, it invokes each
registered child's `run` — declared output ports in declaration order, and
within each port the registered edges in registration order — passing that
port's output buffer and the bound input name.  Each child call contributes
its entire subtree trace (delimited by its own `enter`/`exitRun` events) as a
contiguous block that is concatenated before the next sibling edge's block,
so every child subtree completes before its next sibling starts. -/
theorem C2_run_propagation_order (n : PNode) (data : Option FData) (input : Option String) :
    PNode.runNode n data input =
      (Event.enter n.name input data :: Event.ranSelf n.name ::
        (if n.gate then
          ((PortsT.toList n.ports).map (fun pb =>
            ((EdgesT.toList pb.2.2).map
              (fun e => PNode.runNode e.1 (some pb.2.1) (some e.2))).flatten)).flatten
         else [])) ++ [Event.exitRun n.name] := by
  cases n with
  | mk name gate ports =>
    simp [PNode.runNode, PNode.name, PNode.gate, PNode.ports, callChildren_toList]

/-- A linear chain A → B → C of nodes, each declaring one output port `main`
with an always-true gating predicate and an empty output buffer. -/
def chainC : PNode := .mk "C" true (.cons "main" (FData.create none none) .enil .nil)

def chainB : PNode :=
  .mk "B" true (.cons "main" (FData.create none none) (.econs chainC "in" .enil) .nil)

def chainA : PNode :=
  .mk "A" true (.cons "main" (FData.create none none) (.econs chainB "in" .enil) .nil)

/-- C3 counterexample: the claim states that `dispose_all` on the chain
A → B → C disposes C, then B, then A.  Evaluating the code on that chain shows
that `A.dispose_all()` disposes B and then A only: the `dispose` closure
stored per edge calls the direct child's `dispose`, never the child's
`dispose_all`, so C — reachable only through B — is never disposed. -/
theorem C3_chain_counterexample :
    PNode.dispose_all chainA = [Event.disposed "B", Event.disposed "A"] ∧
    Event.disposed "C" ∉ PNode.dispose_all chainA := by
  constructor
  · rfl
  · decide

theorem disposeEdges_toList : ∀ es : EdgesT,
    EdgesT.disposeEdges es = (EdgesT.toList es).map (fun e => Event.disposed e.1.name)
  | .enil => by simp [EdgesT.disposeEdges, EdgesT.toList]
  | .econs c i rest => by
    simp [EdgesT.disposeEdges, EdgesT.toList, disposeEdges_toList rest]

theorem disposeChildren_toList : ∀ ps : PortsT,
    PortsT.disposeChildren ps =
      ((PortsT.toList ps).map (fun pb =>
        (EdgesT.toList pb.2.2).map (fun e => Event.disposed e.1.name))).flatten
  | .nil => by simp [PortsT.disposeChildren, PortsT.toList]
  | .cons nm b e rest => by
    simp [PortsT.disposeChildren, PortsT.toList, disposeChildren_toList rest,
      disposeEdges_toList]

/-- C3 amended: `dispose_all` disposes each *direct* child — per declared
output port in declaration order, per registered edge in registration order —
by invoking the child's own `dispose`, and then disposes the node itself;
nothing recurses into the children's subtrees, so on a linear chain A → B → C
the call `A.dispose_all()` disposes B, then A, and C is not disposed. -/
theorem C3_dispose_all_amended (n : PNode) :
    PNode.dispose_all n =
      ((PortsT.toList n.ports).map (fun pb =>
        (EdgesT.toList pb.2.2).map (fun e => Event.disposed e.1.name))).flatten
      ++ [Event.disposed n.name] := by
  cases n with
  | mk name gate ports =>
    simp only [PNode.dispose_all]
    rw [disposeChildren_toList]
    rfl

/-!  The `CSVFile` generator node (src/models/node/generator/file/csvfile.py). -/

/-- Embeds `CSVFile._MODULE_NAME` (csvfile.py, line 12). -/
def CSVFile.moduleName : String := "node.generator.file.csvfile"

/-- The index of the last dot in a list of characters, if any. -/
def lastDotIndex (l : List Char) : Option Nat :=
  match l.reverse.findIdx? (fun c => c == '.') with
  | none => none
  | some j => some (l.length - 1 - j)

/-- Python `os.path.splitext(path)[1]`: the extension of the final path
component.  A dot starts an extension only if a non-dot character precedes it
within the component, so a leading-dot name such as `.csv` has no extension. -/
def splitextExt (path : String) : String :=
  let base := (path.toList.reverse.takeWhile (fun c => c != '/')).reverse
  match lastDotIndex base with
  | none => ""
  | some i =>
    if (base.take i).all (fun c => c == '.') then "" else String.mk (base.drop i)

/-- The string payload of a parameter value; only applied after the value has
been checked to be a string, so the fallback is unreachable. -/
def strOfParam : Option PValue → String
  | some (.str s) => s
  | _ => ""

/-- Embeds `CSVFile._validate_parameters` (csvfile.py, lines 30-66), with the checks
in source order: presence of `sampling_frequency` and `file_path`;
`sampling_frequency` of type `float` or `int` (a Python `bool` is rejected
because `type(True) is int` is false); `file_path` a string whose
`os.path.splitext` extension is `.csv`; `timestamp_column_name` a string when
present; `channel_column_names`, when present, a non-empty list of strings.
Note this override does not invoke the base `Node._validate_parameters`. -/
def CSVFile.validate_parameters (p : Params) : Except VErr Unit := do
  if (p "sampling_frequency").isNone then
    throw (.missingParameter CSVFile.moduleName "sampling_frequency")
  if (p "file_path").isNone then
    throw (.missingParameter CSVFile.moduleName "file_path")
  match p "sampling_frequency" with
  | some (.int _) => pure ()
  | some (.float _) => pure ()
  | _ => throw (.invalidParameterValue CSVFile.moduleName "sampling_frequency" "must_be_number")
  match p "file_path" with
  | some (.str _) => pure ()
  | _ => throw (.invalidParameterValue CSVFile.moduleName "file_path" "must_be_string")
  if splitextExt (strOfParam (p "file_path")) ≠ ".csv" then
    throw (.invalidParameterValue CSVFile.moduleName "file_path" "must_be_csv_file")
  match p "timestamp_column_name" with
  | none => pure ()
  | some (.str _) => pure ()
  | some _ =>
    throw (.invalidParameterValue CSVFile.moduleName "timestamp_column_name" "must_be_string")
  match p "channel_column_names" with
  | none => pure ()
  | some (.list l) =>
    if l.isEmpty then
      throw (.invalidParameterValue CSVFile.moduleName "channel_column_names" "is_empty")
    if l.any (fun v => match v with | .str _ => false | _ => true) then
      throw (.invalidParameterValue CSVFile.moduleName "channel_column_names"
        "must_contain_strings_only")
  | some _ =>
    throw (.invalidParameterValue CSVFile.moduleName "channel_column_names" "must_be_list")

/-- The contents of a CSV file as `csv.DictReader` presents them: the header
row (the reader's field names, in file order) and the remaining rows, each a
list of cell strings aligned with the header. -/
structure CsvContent where
  header : List String
  rows : List (List String)
deriving DecidableEq

/-- The state of one `CSVFile` object: the validated parameters kept on
`self`, the reader (`_csv_file` open flag plus the header and the not yet
consumed rows) and the port buffer maps built by `Node.__init__`
(`_get_outputs()` is `["main", "timestamp"]`; a generator declares no
inputs). -/
structure CSVState where
  samplingFrequency : Int
  channelColumnNames : Option (List String)
  timestampColumnName : Option String
  filePath : String
  fileClosed : Bool
  readerHeader : List String
  readerRows : List (List String)
  outputBuffer : List (String × FData)
  inputBuffer : List (String × FData)
deriving DecidableEq

/-- A dict lookup raising `KeyError` on a missing key (`parameters[k]`). -/
def keyGet (p : Params) (k : String) : Except VErr PValue :=
  match p k with
  | some v => .ok v
  | none => .error (.keyError k)

/-- Construction of a `CSVFile` node from a parameters record, following the
source flow.  `CSVFile.__init__` calls `super().__init__(parameters)`;
`GeneratorNode.__init__` is not among the available sources and is modelled
from the spec as passing the record through to `Node.__init__` (spec section
4.4: a collaborator supplies a construction factory from a configuration
record; nothing gives `GeneratorNode` fields of its own).  `Node.__init__`
(node.py, lines 15-27) then:
 1. calls `self._validate_parameters(parameters)`, which dynamically
    dispatches to the `CSVFile` override — the base `Node` checks are never
    run, because the override does not call them;
 2. subscripts `parameters['buffer_options']`, `parameters['type']` and
    `parameters['name']` (a `KeyError` when absent);
 3. builds the empty port buffers and the empty child registry over the
    declared ports.
Control then returns to `CSVFile.__init__` (csvfile.py, lines 17-28), which
validates again, reads `sampling_frequency`, `file_path` and the two optional
column parameters, and opens the file (`_init_csv_reader`; a missing file is
`FileNotFoundError`).  `fs` maps file paths to CSV contents.  The numeric and
string extractions use fallbacks only on branches the preceding validation
makes unreachable. -/
def CSVFile.construct (p : Params) (fs : String → Option CsvContent) :
    Except VErr CSVState := do
  CSVFile.validate_parameters p
  let _bufferOptions ← keyGet p "buffer_options"
  let _typeTag ← keyGet p "type"
  let _nodeName ← keyGet p "name"
  CSVFile.validate_parameters p
  let freq : Int :=
    match p "sampling_frequency" with
    | some (.int n) => n
    | some (.float n) => n
    | _ => 0
  let path : String := strOfParam (p "file_path")
  let chans : Option (List String) :=
    match p "channel_column_names" with
    | some (.list l) => some (l.map (fun v => strOfParam (some v)))
    | _ => none
  let tsCol : Option String :=
    match p "timestamp_column_name" with
    | some (.str s) => some s
    | _ => none
  match fs path with
  | none => .error (.fileNotFound path)
  | some content =>
    .ok { samplingFrequency := freq
          channelColumnNames := chans
          timestampColumnName := tsCol
          filePath := path
          fileClosed := false
          readerHeader := content.header
          readerRows := content.rows
          outputBuffer := [("main", FData.create none none),
                           ("timestamp", FData.create none none)]
          inputBuffer := [] }

/-- Whether an `Except` computation succeeded. -/
def exceptOk {ε α : Type} : Except ε α → Bool
  | .ok _ => true
  | .error _ => false

/-- A parameters record with every base field and every `CSVFile` field
present and well formed. -/
def pCsvFull : Params := fun k =>
  if k = "module" then some (.str "models.node.generator.file.csvfile")
  else if k = "type" then some (.str "CSVFILE")
  else if k = "name" then some (.str "csv1")
  else if k = "buffer_options" then some (.dict [])
  else if k = "outputs" then some (.dict [])
  else if k = "sampling_frequency" then some (.int 250)
  else if k = "file_path" then some (.str "data.csv")
  else none

/-- Removal of one key from a parameters record. -/
def eraseKey (p : Params) (f : String) : Params :=
  fun k => if k = f then none else p k

/-- The file system seen by the construction examples: one CSV file. -/
def fsDemo : String → Option CsvContent :=
  fun path =>
    if path = "data.csv" then
      some ⟨["ch1", "ch2"], [["1", "4"], ["2", "5"], ["3", "6"]]⟩
    else none

/-- A parameters record whose `module` value does not contain `models.node.`
but whose required fields are otherwise all present. -/
def badModuleParams : Params := fun k =>
  if k = "module" then some (.str "totally.unrelated.path")
  else if k = "type" then some (.str "NODE")
  else if k = "buffer_options" then some (.dict [])
  else if k = "outputs" then some (.dict [])
  else if k = "name" then some (.str "n1")
  else none

/-- C5: the claim states that a `module` value not containing `models.node.`
makes construction fail eagerly with an `InvalidParameterValue` (or
equivalent) error.  Evaluating the base validator on the failing input — a
record whose `module` is `totally.unrelated.path` — shows validation
succeeds: the source constructs `ValueError('error.invalid.value.node.module')`
at node.py lines 37-41 but is missing the `raise`, so the exception object is
created and discarded. -/
theorem C5_invalid_module_accepted :
    Node.validate_parameters badModuleParams = .ok () ∧
    strIn "models.node." "totally.unrelated.path" = false := by
  constructor <;> rfl

/-- C6 counterexample: the claim states that removing any required base field
(`module`, `type`, `name`, `buffer_options`, `outputs`) makes construction
fail with a `MissingParameter` error naming the field.  Constructing a
`CSVFile` from a record lacking `outputs` succeeds with no error at all: the
`CSVFile` validation override never runs the base checks, and nothing else
reads `outputs`. -/
theorem C6_missing_outputs_not_detected :
    exceptOk (CSVFile.construct (eraseKey pCsvFull "outputs") fsDemo) = true := by
  rfl

/-- C6 amended: for `CSVFile`, only the subclass fields `sampling_frequency`
and `file_path` yield a `MissingParameter` error naming exactly the absent
field.  The base checks are bypassed (the `_validate_parameters` override
does not call them), so a missing `type`, `buffer_options` or `name` surfaces
as a `KeyError` from the attribute subscripts in `Node.__init__`, and a
missing `module` or `outputs` is not detected at all.  The base validator
itself, when it does run, raises a `ValueError` naming each missing base
field in its message. -/
theorem C6_missing_field_behavior :
    (CSVFile.construct (eraseKey pCsvFull "sampling_frequency") fsDemo
      = .error (.missingParameter CSVFile.moduleName "sampling_frequency")) ∧
    (CSVFile.construct (eraseKey pCsvFull "file_path") fsDemo
      = .error (.missingParameter CSVFile.moduleName "file_path")) ∧
    (CSVFile.construct (eraseKey pCsvFull "type") fsDemo = .error (.keyError "type")) ∧
    (CSVFile.construct (eraseKey pCsvFull "buffer_options") fsDemo
      = .error (.keyError "buffer_options")) ∧
    (CSVFile.construct (eraseKey pCsvFull "name") fsDemo = .error (.keyError "name")) ∧
    (exceptOk (CSVFile.construct (eraseKey pCsvFull "module") fsDemo) = true) ∧
    (Node.validate_parameters (eraseKey pCsvFull "module")
      = .error (.valueError "error.missing.node.module")) ∧
    (Node.validate_parameters (eraseKey pCsvFull "type")
      = .error (.valueError "error.missing.node.type")) ∧
    (Node.validate_parameters (eraseKey pCsvFull "buffer_options")
      = .error (.valueError "error.missing.node.buffer_options")) ∧
    (Node.validate_parameters (eraseKey pCsvFull "outputs")
      = .error (.valueError "error.missing.node.outputs")) ∧
    (Node.validate_parameters (eraseKey pCsvFull "name")
      = .error (.valueError "error.missing.node.name")) := by
  refine ⟨?_, ?_, ?_, ?_, ?_, ?_, ?_, ?_, ?_, ?_, ?_⟩ <;> rfl

/-- Python `row[k]` on a `csv.DictReader` row: the cell aligned with header name `k`;
a missing key is a Python `KeyError`. -/
def rowLookup (header row : List String) (k : String) : Except VErr String :=
  match (header.zip row).lookup k with
  | some v => .ok v
  | none => .error (.keyError k)

/-- The total variant of `rowLookup`, used to state what successful runs
produce. -/
def rowGet (header row : List String) (k : String) : String :=
  ((header.zip row).lookup k).getD ""

/-- The inner loop of `_generate_data` over the channel columns of one row
(csvfile.py, lines 93-94): for each channel name, append
`[float(row[channel_name])]` to that channel of the main buffer. -/
def rowFold (header row : List String) : List String → FData → Except VErr FData
  | [], m => .ok m
  | ch :: cs, m => do
    let v ← rowLookup header row ch
    rowFold header row cs (m.appendOn (some ch) [Cell.flt v])

/-- The row loop of `_generate_data` (csvfile.py, lines 90-96), carrying the
row index, the current `self.channel_column_names` (adopted from the header at
row 0 when not configured; after row 0 it is always set, so the `getD []`
fallback is unreachable), and the two accumulating buffers.  Per row: the
channel columns are appended first, then the timestamp — the row index when no
timestamp column is configured, else the raw value of the named column —
is appended to the timestamp buffer's default channel. -/
def CSVFile.genLoop (tsCol : Option String) (header : List String) :
    Nat → Option (List String) → List (List String) → FData → FData →
    Except VErr (Option (List String) × FData × FData)
  | _, chans, [], main, ts => .ok (chans, main, ts)
  | i, chans, row :: rest, main, ts => do
    let chans := if i == 0 && chans.isNone then some header else chans
    let main ← rowFold header row (chans.getD []) main
    let rowTs ←
      match tsCol with
      | none => pure (Cell.idx i)
      | some c => do
        let v ← rowLookup header row c
        pure (Cell.str v)
    CSVFile.genLoop tsCol header (i + 1) chans rest main (ts.appendOn none [rowTs])

/-- Embeds `CSVFile._generate_data` (csvfile.py, lines 87-103): builds one fresh
`FrameworkData` per output — the main buffer pre-declaring the configured
channel columns — iterates the reader rows, and returns the (possibly
adopted) channel columns together with the returned
`{main: ..., timestamp: ...}` dict.  Closing the file is the caller's state
change, modelled in `CSVFile.runStep`. -/
def CSVFile.generate_data (freq : Int) (chCols : Option (List String))
    (tsCol : Option String) (header : List String) (rows : List (List String)) :
    Except VErr (Option (List String) × List (String × FData)) := do
  let r ← CSVFile.genLoop tsCol header 0 chCols rows
    (FData.create (some freq) chCols) (FData.create (some freq) none)
  pure (r.1, [("main", r.2.1), ("timestamp", r.2.2)])

/-- Embeds `Node._insert_new_output_data` (node.py, lines 94-102):
`self._output_buffer[output_name].extend(data)`; a key absent from the buffer
map is a `KeyError`. -/
def insertOutput (buf : List (String × FData)) (k : String) (d : FData) :
    Except VErr (List (String × FData)) :=
  match buf.lookup k with
  | none => .error (.keyError k)
  | some old => .ok (setKey buf k (old.extend d))

/-- Modelled from the spec: `GeneratorNode._run`
(`models/node/generator/generator_node.py` is not among the available
sources).  Spec section 2: a generator "produces data into its own output
buffers"; the src `CSVFile` supplies `_is_generate_data_condition_satisfied`
(csvfile.py line 84: the file is not closed) and `_generate_data`, so the
generator step generates while the condition holds and inserts each produced
output into the matching output buffer; `_generate_data` itself closes the
file and leaves the reader exhausted. -/
def CSVFile.runStep (s : CSVState) : Except VErr CSVState :=
  if s.fileClosed then .ok s
  else do
    let r ← CSVFile.generate_data s.samplingFrequency s.channelColumnNames
      s.timestampColumnName s.readerHeader s.readerRows
    let buf ← r.2.foldlM (fun b kv => insertOutput b kv.1 kv.2) s.outputBuffer
    pure { s with fileClosed := true, channelColumnNames := r.1, readerRows := [],
                  outputBuffer := buf }

/-- The error type of `run`: `RunErr.nodeDisposed` is the `NodeDisposed`
error the specification demands when a disposed node is run; the source
contains no such exception class and no disposal check, so no code path
produces it. -/
inductive RunErr where
  | nodeDisposed : RunErr
  | err : VErr → RunErr
deriving DecidableEq

/-- Embeds `Node.run` (node.py, lines 149-160) instantiated at `CSVFile`: the node's
own `_run` step, then the gating predicate `_is_next_node_call_enabled`
(csvfile.py line 81: `self._output_buffer['timestamp'].has_data()`).  Returns
the state after the call and whether the children would be invoked.  `run`
performs no disposal check of any kind. -/
def CSVFile.run (s : CSVState) : Except RunErr (CSVState × Bool) :=
  match CSVFile.runStep s with
  | .error e => .error (.err e)
  | .ok s2 =>
    match s2.outputBuffer.lookup "timestamp" with
    | none => .error (.err (.keyError "timestamp"))
    | some ts => .ok (s2, ts.hasData)

/-- Embeds `CSVFile.dispose` (csvfile.py, lines 111-116): `_clear_output_buffer()`
and `_clear_input_buffer()` replace each declared port's buffer with a fresh
empty `FrameworkData()` (a generator declares no inputs, so the input map is
empty), then the file is closed if it is open. -/
def CSVFile.dispose (s : CSVState) : CSVState :=
  { s with
      outputBuffer := [("main", FData.create none none),
                       ("timestamp", FData.create none none)]
      inputBuffer := []
      fileClosed := true }

/-- C4 amended: calling `run` on a disposed `CSVFile` does not fail — there
is no `NodeDisposed` error anywhere in the code and `Node.run` performs no
disposal check.  The call silently does nothing: the generation condition is
false (the file was closed by `dispose`) and the cleared timestamp buffer has
no data, so no children would be invoked and the state is returned
unchanged. -/
theorem C4_run_after_dispose_noop (s : CSVState) :
    CSVFile.run (CSVFile.dispose s) = .ok (CSVFile.dispose s, false) := rfl

/-- A concrete `CSVFile` state right after `dispose`. -/
def c4State : CSVState :=
  CSVFile.dispose
    { samplingFrequency := 250
      channelColumnNames := none
      timestampColumnName := none
      filePath := "data.csv"
      fileClosed := false
      readerHeader := ["ch1", "ch2"]
      readerRows := [["1", "4"]]
      outputBuffer := [("main", FData.create none none),
                       ("timestamp", FData.create none none)]
      inputBuffer := [] }

/-- C4 counterexample: the claim states that `run` on a disposed node fails
with a `NodeDisposed` error rather than silently doing nothing.  On a
concrete disposed `CSVFile`, `run` returns successfully with the state
unchanged and no propagation — in particular it does not fail with
`NodeDisposed`. -/
theorem C4_counterexample :
    CSVFile.run c4State = .ok (c4State, false) ∧
    CSVFile.run c4State ≠ .error RunErr.nodeDisposed := by
  constructor
  · rfl
  · intro h
    exact Except.noConfusion
      ((rfl : CSVFile.run c4State = Except.ok (c4State, false)).symm.trans h)

/-!  Lemmas about buffer channel lookups, used to characterize `_generate_data`. -/

theorem lookup_channelAppend_self (ch : String) (xs : List Cell) :
    ∀ l, (List.lookup ch (channelAppend l ch xs)).getD []
      = (List.lookup ch l).getD [] ++ xs
  | [] => by simp [channelAppend, List.lookup]
  | (c, ys) :: rest => by
    by_cases hc : c = ch
    · subst hc
      simp [channelAppend, List.lookup]
    · have hbeq : (ch == c) = false := by
        rw [beq_eq_false_iff_ne]
        exact Ne.symm hc
      simp [channelAppend, hc, List.lookup, hbeq, lookup_channelAppend_self ch xs rest]

theorem lookup_channelAppend_ne (ch ch' : String) (xs : List Cell) (h : ch' ≠ ch) :
    ∀ l, List.lookup ch' (channelAppend l ch xs) = List.lookup ch' l
  | [] => by
    have hbeq : (ch' == ch) = false := by
      rw [beq_eq_false_iff_ne]
      exact h
    simp [channelAppend, List.lookup, hbeq]
  | (c, ys) :: rest => by
    by_cases hc : c = ch
    · subst hc
      have hbeq : (ch' == c) = false := by
        rw [beq_eq_false_iff_ne]
        exact h
      simp [channelAppend, List.lookup, hbeq]
    · by_cases hc' : ch' = c
      · subst hc'
        simp [channelAppend, hc, List.lookup]
      · have hbeq : (ch' == c) = false := by
          rw [beq_eq_false_iff_ne]
          exact hc'
        simp [channelAppend, hc, List.lookup, hbeq, lookup_channelAppend_ne ch ch' xs h rest]

theorem lookup_map_nilChannels (ch : String) :
    ∀ l : List String,
      (List.lookup ch (l.map (fun c => (c, ([] : List Cell))))).getD [] = []
  | [] => by simp [List.lookup]
  | c :: rest => by
    by_cases hc : ch = c
    · subst hc
      simp [List.lookup]
    · have hbeq : (ch == c) = false := by
        rw [beq_eq_false_iff_ne]
        exact hc
      simp [List.lookup, hbeq, lookup_map_nilChannels ch rest]

theorem lookup_create_getD (f : Option Int) (cns : Option (List String)) (ch : String) :
    (List.lookup ch (FData.create f cns).channels).getD [] = [] :=
  lookup_map_nilChannels ch (cns.getD [])

theorem zip_lookup_isSome (k : String) :
    ∀ (header row : List String), k ∈ header → header.length ≤ row.length →
      (List.lookup k (header.zip row)).isSome = true
  | [], _, hk, _ => by simp at hk
  | h0 :: hs, [], _, hlen => by simp at hlen
  | h0 :: hs, r0 :: rs, hk, hlen => by
    simp only [List.zip_cons_cons, List.lookup]
    by_cases hk0 : k = h0
    · subst hk0
      simp
    · have hbeq : (k == h0) = false := by
        rw [beq_eq_false_iff_ne]
        exact hk0
      simp only [hbeq]
      have hk2 : k ∈ hs := by
        cases List.mem_cons.mp hk with
        | inl h => exact absurd h hk0
        | inr h => exact h
      have hlen2 : hs.length ≤ rs.length := by
        simp only [List.length_cons] at hlen
        omega
      exact zip_lookup_isSome k hs rs hk2 hlen2

theorem rowLookup_ok (header row : List String) (k : String)
    (hk : k ∈ header) (hlen : header.length ≤ row.length) :
    rowLookup header row k = .ok (rowGet header row k) := by
  obtain ⟨v, hv⟩ := Option.isSome_iff_exists.mp (zip_lookup_isSome k header row hk hlen)
  unfold rowLookup rowGet
  rw [hv]
  rfl

theorem rowFold_ok (header row : List String) (hlen : header.length ≤ row.length) :
    ∀ (cs : List String) (m : FData), (∀ c ∈ cs, c ∈ header) →
      rowFold header row cs m
        = .ok (List.foldl (fun (m : FData) ch =>
            m.appendOn (some ch) [Cell.flt (rowGet header row ch)]) m cs)
  | [], m, _ => rfl
  | ch :: cs, m, hsub => by
    have h1 := rowLookup_ok header row ch (hsub ch (by simp)) hlen
    simp only [rowFold, h1, List.foldl_cons, Except.bind, bind]
    exact rowFold_ok header row hlen cs _ (fun c hc => hsub c (by simp [hc]))

theorem foldl_row_lookup (header row : List String) :
    ∀ (cs : List String) (m : FData), cs.Nodup →
      ∀ ch, (List.lookup ch (List.foldl (fun (m : FData) c =>
          m.appendOn (some c) [Cell.flt (rowGet header row c)]) m cs).channels).getD []
        = (List.lookup ch m.channels).getD []
          ++ (if ch ∈ cs then [Cell.flt (rowGet header row ch)] else [])
  | [], m, _, ch => by simp
  | c :: cs, m, hnd, ch => by
    obtain ⟨hc_not, hnd2⟩ := List.nodup_cons.mp hnd
    rw [List.foldl_cons, foldl_row_lookup header row cs _ hnd2 ch]
    have happ : (m.appendOn (some c) [Cell.flt (rowGet header row c)]).channels
        = channelAppend m.channels c [Cell.flt (rowGet header row c)] := rfl
    by_cases hch : ch = c
    · subst hch
      rw [if_neg hc_not, if_pos (List.mem_cons_self ch cs), happ,
        lookup_channelAppend_self]
      simp
    · rw [happ, lookup_channelAppend_ne c ch _ hch]
      by_cases hmem : ch ∈ cs
      · rw [if_pos hmem, if_pos (by simp [hmem])]
      · rw [if_neg hmem, if_neg (by simp [hch, hmem])]

/-- The timestamp cell produced for one row (csvfile.py, line 95): the row
index when no timestamp column is configured
(`_should_generate_timestamp`), else the raw value of the named column. -/
def rowTsCell (tsCol : Option String) (header : List String) (i : Nat) (r : List String) : Cell :=
  match tsCol with
  | none => Cell.idx i
  | some c => Cell.str (rowGet header r c)

/-- The timestamp cells produced for a run of rows starting at index `i`. -/
def tsCells (tsCol : Option String) (header : List String) :
    Nat → List (List String) → List Cell
  | _, [] => []
  | i, r :: rest => rowTsCell tsCol header i r :: tsCells tsCol header (i + 1) rest

theorem tsCells_none (header : List String) :
    ∀ (i : Nat) (rows : List (List String)),
      tsCells none header i rows = (List.range' i rows.length).map Cell.idx
  | _, [] => by simp [tsCells]
  | i, r :: rest => by
    simp [tsCells, rowTsCell, tsCells_none header (i + 1) rest, List.range'];

theorem tsCells_some (header : List String) (c : String) :
    ∀ (i : Nat) (rows : List (List String)),
      tsCells (some c) header i rows = rows.map (fun r => Cell.str (rowGet header r c))
  | _, [] => by simp [tsCells]
  | i, r :: rest => by
    simp [tsCells, rowTsCell, tsCells_some header c (i + 1) rest]

/-- The default-channel contents after appending one timestamp cell. -/
theorem lookup_appendOn_none (ts : FData) (x : Cell) :
    (List.lookup FData.defaultChannel (ts.appendOn none [x]).channels).getD []
      = (List.lookup FData.defaultChannel ts.channels).getD [] ++ [x] := by
  have h : (ts.appendOn none [x]).channels
      = channelAppend ts.channels FData.defaultChannel [x] := rfl
  rw [h, lookup_channelAppend_self]

/-- The invariant of the `_generate_data` row loop once the channel columns
are fixed: the loop succeeds, leaves the channel columns unchanged, appends
per configured channel one converted cell per row in row order, and appends
one timestamp cell per row to the timestamp buffer's default channel. -/
theorem genLoop_some (tsCol : Option String) (header : List String) (cs : List String)
    (hnd : cs.Nodup) (hsub : ∀ c ∈ cs, c ∈ header)
    (hts : ∀ c, tsCol = some c → c ∈ header) :
    ∀ (rows : List (List String)), (∀ r ∈ rows, header.length ≤ r.length) →
    ∀ (i : Nat) (main ts : FData),
      ∃ main2 ts2,
        CSVFile.genLoop tsCol header i (some cs) rows main ts = .ok (some cs, main2, ts2) ∧
        (∀ ch, (List.lookup ch main2.channels).getD []
            = (List.lookup ch main.channels).getD []
              ++ (if ch ∈ cs then rows.map (fun r => Cell.flt (rowGet header r ch)) else [])) ∧
        ((List.lookup FData.defaultChannel ts2.channels).getD []
            = (List.lookup FData.defaultChannel ts.channels).getD []
              ++ tsCells tsCol header i rows) := by
  intro rows
  induction rows with
  | nil =>
    intro _ i main ts
    refine ⟨main, ts, rfl, ?_, ?_⟩
    · intro ch
      by_cases h : ch ∈ cs <;> simp [h]
    · simp [tsCells]
  | cons r rest ih =>
    intro hrows i main ts
    have hlen : header.length ≤ r.length := hrows r (List.mem_cons_self r rest)
    have hrest : ∀ r2 ∈ rest, header.length ≤ r2.length :=
      fun r2 h2 => hrows r2 (List.mem_cons_of_mem r h2)
    have hfold := rowFold_ok header r hlen cs main hsub
    obtain ⟨main2, ts2, heq, hmain, htsr⟩ :=
      ih hrest (i + 1)
        (List.foldl (fun (m : FData) ch =>
          m.appendOn (some ch) [Cell.flt (rowGet header r ch)]) main cs)
        (ts.appendOn none [rowTsCell tsCol header i r])
    refine ⟨main2, ts2, ?_, ?_, ?_⟩
    · cases tsCol with
      | none =>
        simp only [CSVFile.genLoop, Option.isNone_some, Bool.and_false, Bool.false_eq_true,
          if_false, Option.getD_some, hfold, bind, Except.bind, pure, Except.pure,
          rowTsCell] at heq ⊢
        exact heq
      | some c =>
        have hrl := rowLookup_ok header r c (hts c rfl) hlen
        simp only [CSVFile.genLoop, Option.isNone_some, Bool.and_false, Bool.false_eq_true,
          if_false, Option.getD_some, hfold, hrl, bind, Except.bind, pure, Except.pure,
          rowTsCell] at heq ⊢
        exact heq
    · intro ch
      rw [hmain ch, foldl_row_lookup header r cs main hnd ch]
      by_cases hmem : ch ∈ cs
      · simp [hmem]
      · simp [hmem]
    · rw [htsr, lookup_appendOn_none]
      simp [tsCells, List.append_assoc]

/-- When the channel columns are not configured, the first loop iteration
adopts the header as channel columns (csvfile.py, lines 91-92), after which
the loop proceeds exactly as if they had been configured as the header. -/
theorem genLoop_none_cons (tsCol : Option String) (header : List String)
    (r : List String) (rest : List (List String)) (main ts : FData) :
    CSVFile.genLoop tsCol header 0 none (r :: rest) main ts
      = CSVFile.genLoop tsCol header 0 (some header) (r :: rest) main ts := rfl

/-- C8: for a CSV input with header `header` and `n` rows, `_generate_data`
produces on the `timestamp` output one value per row — the row index
`0, 1, ..., n-1` when no timestamp column is configured, else the named
column's raw value — and on the `main` output, for each channel column (the
configured ones, or every header column when none are configured), the rows'
values converted to floats in row order.  The hypotheses state that the rows
are at least as wide as the header and that the configured column names
exist in the header (and are distinct), which is what `csv.DictReader`
guarantees for a well-formed file. -/
theorem C8_generate_outputs (freq : Int) (chCols : Option (List String))
    (tsCol : Option String) (header : List String) (rows : List (List String))
    (hnd : (chCols.getD header).Nodup)
    (hsub : ∀ c ∈ chCols.getD header, c ∈ header)
    (hts : ∀ c, tsCol = some c → c ∈ header)
    (hrows : ∀ r ∈ rows, header.length ≤ r.length) :
    ∃ chans2 main ts,
      CSVFile.generate_data freq chCols tsCol header rows
        = .ok (chans2, [("main", main), ("timestamp", ts)]) ∧
      (∀ ch ∈ chCols.getD header,
        (List.lookup ch main.channels).getD []
          = rows.map (fun r => Cell.flt (rowGet header r ch))) ∧
      ((List.lookup FData.defaultChannel ts.channels).getD []
          = match tsCol with
            | none => (List.range rows.length).map Cell.idx
            | some c => rows.map (fun r => Cell.str (rowGet header r c))) := by
  cases chCols with
  | some cs =>
    obtain ⟨main2, ts2, heq, hmain, hts2⟩ :=
      genLoop_some tsCol header cs (by simpa using hnd) (by simpa using hsub) hts
        rows hrows 0 (FData.create (some freq) (some cs)) (FData.create (some freq) none)
    refine ⟨some cs, main2, ts2, ?_, ?_, ?_⟩
    · simp [CSVFile.generate_data, heq, bind, Except.bind, pure, Except.pure]
    · intro ch hch
      rw [hmain ch, lookup_create_getD, if_pos (by simpa using hch)]
      simp
    · rw [hts2, lookup_create_getD]
      cases tsCol with
      | none => simp [tsCells_none, List.range_eq_range']
      | some c => simp [tsCells_some]
  | none =>
    cases rows with
    | nil =>
      refine ⟨none, FData.create (some freq) none, FData.create (some freq) none, rfl, ?_, ?_⟩
      · intro ch hch
        rw [lookup_create_getD]
        simp
      · rw [lookup_create_getD]
        cases tsCol <;> simp
    | cons r rest =>
      have hnd2 : header.Nodup := by simpa using hnd
      obtain ⟨main2, ts2, heq, hmain, hts2⟩ :=
        genLoop_some tsCol header header hnd2 (fun c hc => hc) hts
          (r :: rest) hrows 0 (FData.create (some freq) none) (FData.create (some freq) none)
      refine ⟨some header, main2, ts2, ?_, ?_, ?_⟩
      · simp [CSVFile.generate_data, genLoop_none_cons, heq, bind, Except.bind,
          pure, Except.pure]
      · intro ch hch
        rw [hmain ch, lookup_create_getD, if_pos (by simpa using hch)]
        simp
      · rw [hts2, lookup_create_getD]
        cases tsCol with
        | none => simp [tsCells_none, List.range_eq_range']
        | some c => simp [tsCells_some]

/-- C8 witness: the specification's end-to-end example — a 3-row source with
header `ch1,ch2`, no timestamp column, sampling frequency 250 — instantiated
with every hypothesis discharged: `main.ch1` and `main.ch2` carry the three
converted cells in row order and the timestamp carries `[0, 1, 2]`. -/
theorem C8_generate_outputs_witness :
    ((["ch1", "ch2"] : List String).Nodup) ∧
    (∃ chans2 main ts,
      CSVFile.generate_data 250 none none ["ch1", "ch2"]
          [["1", "4"], ["2", "5"], ["3", "6"]]
        = .ok (chans2, [("main", main), ("timestamp", ts)]) ∧
      (∀ ch ∈ (["ch1", "ch2"] : List String),
        (List.lookup ch main.channels).getD []
          = [["1", "4"], ["2", "5"], ["3", "6"]].map
              (fun r => Cell.flt (rowGet ["ch1", "ch2"] r ch))) ∧
      ((List.lookup FData.defaultChannel ts.channels).getD []
          = (List.range 3).map Cell.idx)) :=
  ⟨by decide,
   C8_generate_outputs 250 none none ["ch1", "ch2"] [["1", "4"], ["2", "5"], ["3", "6"]]
     (by decide) (by decide) (fun c h => nomatch h) (by decide)⟩

/-!  The process-wide configuration cache (src/config/configuration.py). -/

/-- A JSON document, as far as the configuration accessors inspect it. -/
inductive Json where
  | str : String → Json
  | num : Int → Json
  | obj : List (String × Json) → Json
  | arr : List Json → Json

/-- Subscript `doc[k]` on a JSON object; `none` models a raised `KeyError`. -/
def Json.get (j : Json) (k : String) : Option Json :=
  match j with
  | .obj kvs => kvs.lookup k
  | _ => none

/-- Embeds `Configuration.__config`, the class-level cache slot (configuration.py,
line 6); `none` models Python `None`. -/
structure ConfigState where
  config : Option Json

/-- Embeds `Configuration.reset_config` (configuration.py, lines 11-12). -/
def Configuration.reset_config (_s : ConfigState) : ConfigState := ⟨none⟩

/-- Embeds `Configuration._config` (configuration.py, lines 15-20): when the cache
slot is empty, open the file at the fixed path `config/configuration.json`,
parse it and store the result; otherwise return the cached document.
`fileDoc` stands for the parsed document at that fixed path; the third
component counts the file reads performed by this call. -/
def Configuration.config (fileDoc : Json) (s : ConfigState) : Json × ConfigState × Nat :=
  match s.config with
  | some d => (d, s, 0)
  | none => (fileDoc, ⟨some fileDoc⟩, 1)

/-- Embeds `Configuration.get_root_nodes` (configuration.py, lines 23-24):
`Configuration._config()['nodes']['root']`. -/
def Configuration.get_root_nodes (fileDoc : Json) (s : ConfigState) :
    Option Json × ConfigState × Nat :=
  let r := Configuration.config fileDoc s
  ((r.1.get "nodes").bind (fun n => n.get "root"), r.2.1, r.2.2)

/-- Embeds `Configuration.get_common_nodes` (configuration.py, lines 27-28). -/
def Configuration.get_common_nodes (fileDoc : Json) (s : ConfigState) :
    Option Json × ConfigState × Nat :=
  let r := Configuration.config fileDoc s
  ((r.1.get "nodes").bind (fun n => n.get "common"), r.2.1, r.2.2)

/-- The operations a client can perform against the configuration cache. -/
inductive COp where
  | getRoot : COp
  | getCommon : COp
  | reset : COp
deriving DecidableEq

/-- One client operation: the state after it and the file reads it performed. -/
def Configuration.stepOp (fileDoc : Json) (s : ConfigState) : COp → ConfigState × Nat
  | .getRoot => (Configuration.get_root_nodes fileDoc s).2
  | .getCommon => (Configuration.get_common_nodes fileDoc s).2
  | .reset => (Configuration.reset_config s, 0)

/-- A sequence of client operations: the final state and the total file
reads. -/
def Configuration.runOps (fileDoc : Json) : ConfigState → List COp → ConfigState × Nat
  | s, [] => (s, 0)
  | s, op :: rest =>
    let r := Configuration.stepOp fileDoc s op
    let r2 := Configuration.runOps fileDoc r.1 rest
    (r2.1, r.2 + r2.2)

def countResets : List COp → Nat
  | [] => 0
  | .reset :: rest => countResets rest + 1
  | _ :: rest => countResets rest

/-- Total file reads over a run of operations never exceed one initial load
plus one reload per reset. -/
theorem runOps_reads_bound (fileDoc : Json) :
    ∀ (ops : List COp) (s : ConfigState),
      (Configuration.runOps fileDoc s ops).2 ≤
        (if s.config.isSome then 0 else 1) + countResets ops
  | [], s => by
    simp [Configuration.runOps, countResets]
  | op :: rest, s => by
    cases op with
    | reset =>
      have h := runOps_reads_bound fileDoc rest ⟨none⟩
      cases hc : s.config with
      | some d =>
        simp only [Configuration.runOps, Configuration.stepOp, Configuration.reset_config,
          countResets, hc, Option.isSome_some, Option.isSome_none, Bool.false_eq_true,
          if_true, if_false] at *
        omega
      | none =>
        simp only [Configuration.runOps, Configuration.stepOp, Configuration.reset_config,
          countResets, hc, Option.isSome_some, Option.isSome_none, Bool.false_eq_true,
          if_true, if_false] at *
        omega
    | getRoot =>
      cases hc : s.config with
      | some d =>
        have h := runOps_reads_bound fileDoc rest s
        have hstep : Configuration.stepOp fileDoc s .getRoot = (s, 0) := by
          simp [Configuration.stepOp, Configuration.get_root_nodes, Configuration.config, hc]
        simp only [Configuration.runOps, hstep, countResets, hc, Option.isSome_some,
          if_true] at *
        omega
      | none =>
        have h := runOps_reads_bound fileDoc rest ⟨some fileDoc⟩
        have hstep : Configuration.stepOp fileDoc s .getRoot = (⟨some fileDoc⟩, 1) := by
          simp [Configuration.stepOp, Configuration.get_root_nodes, Configuration.config, hc]
        simp only [Configuration.runOps, hstep, countResets, hc, Option.isSome_some,
          Option.isSome_none, Bool.false_eq_true, if_true, if_false] at *
        omega
    | getCommon =>
      cases hc : s.config with
      | some d =>
        have h := runOps_reads_bound fileDoc rest s
        have hstep : Configuration.stepOp fileDoc s .getCommon = (s, 0) := by
          simp [Configuration.stepOp, Configuration.get_common_nodes, Configuration.config, hc]
        simp only [Configuration.runOps, hstep, countResets, hc, Option.isSome_some,
          if_true] at *
        omega
      | none =>
        have h := runOps_reads_bound fileDoc rest ⟨some fileDoc⟩
        have hstep : Configuration.stepOp fileDoc s .getCommon = (⟨some fileDoc⟩, 1) := by
          simp [Configuration.stepOp, Configuration.get_common_nodes, Configuration.config, hc]
        simp only [Configuration.runOps, hstep, countResets, hc, Option.isSome_some,
          Option.isSome_none, Bool.false_eq_true, if_true, if_false] at *
        omega

/-- C9: the configuration cache loads the file at most once per lifetime.
With the cache loaded, both accessors answer from the cached document with
zero file reads and leave the state unchanged; with the cache empty, an
accessor reads the file once and caches the parsed document; non-reset
operations never clear the cache; only `reset_config` empties it, after which
the next accessor call reloads; and over any operation sequence the total
number of file reads is bounded by one initial load plus one reload per
reset. -/
theorem C9_config_cache (fileDoc d : Json) (s : ConfigState) (ops : List COp) :
    (s.config = some d →
      Configuration.get_root_nodes fileDoc s
        = ((d.get "nodes").bind (fun n => n.get "root"), s, 0) ∧
      Configuration.get_common_nodes fileDoc s
        = ((d.get "nodes").bind (fun n => n.get "common"), s, 0)) ∧
    (s.config = none →
      Configuration.get_root_nodes fileDoc s
        = ((fileDoc.get "nodes").bind (fun n => n.get "root"), ⟨some fileDoc⟩, 1) ∧
      Configuration.get_common_nodes fileDoc s
        = ((fileDoc.get "nodes").bind (fun n => n.get "common"), ⟨some fileDoc⟩, 1)) ∧
    (∀ op, op ≠ COp.reset → s.config = some d →
      (Configuration.stepOp fileDoc s op).1 = s) ∧
    ((Configuration.reset_config s).config = none) ∧
    ((Configuration.runOps fileDoc s ops).2 ≤
      (if s.config.isSome then 0 else 1) + countResets ops) := by
  refine ⟨?_, ?_, ?_, rfl, runOps_reads_bound fileDoc ops s⟩
  · intro hc
    constructor <;>
      simp [Configuration.get_root_nodes, Configuration.get_common_nodes,
        Configuration.config, hc]
  · intro hc
    constructor <;>
      simp [Configuration.get_root_nodes, Configuration.get_common_nodes,
        Configuration.config, hc]
  · intro op hop hc
    cases op with
    | reset => exact absurd rfl hop
    | getRoot =>
      simp [Configuration.stepOp, Configuration.get_root_nodes, Configuration.config, hc]
    | getCommon =>
      simp [Configuration.stepOp, Configuration.get_common_nodes, Configuration.config, hc]

/-- C9 witness: the cache behaviour on a concrete document and operation
sequence, with every hypothesis discharged: a loaded cache answers with zero
reads, an empty cache reads once, and the run `[getRoot, getCommon, reset,
getRoot]` from the empty cache performs at most two reads. -/
theorem C9_config_cache_witness :
    ((⟨some (Json.obj [("nodes", Json.obj [("root", Json.arr []), ("common", Json.arr [])])])⟩ :
        ConfigState).config
      = some (Json.obj [("nodes", Json.obj [("root", Json.arr []), ("common", Json.arr [])])])) ∧
    (Configuration.get_root_nodes (Json.obj [])
        ⟨some (Json.obj [("nodes", Json.obj [("root", Json.arr []), ("common", Json.arr [])])])⟩
      = (some (Json.arr []),
         ⟨some (Json.obj [("nodes", Json.obj [("root", Json.arr []), ("common", Json.arr [])])])⟩,
         0)) ∧
    ((Configuration.runOps (Json.obj []) ⟨none⟩
        [COp.getRoot, COp.getCommon, COp.reset, COp.getRoot]).2 ≤ 1 + 1) := by
  have h := C9_config_cache (Json.obj [])
    (Json.obj [("nodes", Json.obj [("root", Json.arr []), ("common", Json.arr [])])])
    ⟨some (Json.obj [("nodes", Json.obj [("root", Json.arr []), ("common", Json.arr [])])])⟩
    []
  have h2 := C9_config_cache (Json.obj [])
    (Json.obj []) ⟨none⟩ [COp.getRoot, COp.getCommon, COp.reset, COp.getRoot]
  refine ⟨rfl, ?_, ?_⟩
  · exact ((h.1 rfl).1.trans (by rfl))
  · have hb := h2.2.2.2.2
    simpa [countResets] using hb
